import Mathlib

/-!
Shallow embedding of the WeaR-Synaptic replay and capture layer.

The definitions below are translated from the repository's TypeScript
sources:

* `src/src/services/ReplayEngine.ts` — the `ReplayEngine` class.  Its
  mutable instance fields become the record `EngineState`; each public
  method becomes a function from the old state (plus the current clock
  reading `now`, standing for `performance.now()`) to the new state
  together with the observable callback outputs (`onLog` emissions and
  `onProgress` reports).  Times and the speed multiplier are modelled as
  rationals (`ℚ`), matching the exact real-number arithmetic of the
  source expressions.  The log store backing `getLogsBySession` /
  `getLogCount` is modelled as the fixed ordered list of the session's
  events; `fetchNextBatch` reads `batchSize` events starting at `offset`.
  The engine is single-threaded and the embedding runs each awaited
  fetch to completion at its call site (one deterministic schedule of
  the cooperative loop); `performance.now()` calls that occur within one
  synchronous method invocation are modelled as a single instant `now`.
* the database service layer (`getLogsBySession`) — the SQL query
  `ORDER BY timestamp ASC LIMIT .. OFFSET ..` is modelled relationally:
  a list is a possible query result iff it is obtained by dropping
  `offset` and taking `limit` elements from some timestamp-sorted
  permutation of the session's rows (SQL fixes no order between rows
  with equal `timestamp`).
* the Zustand app store's `addInspectorMessage` and the inspector
  panel's live-message `setMessages` updater, both bounded buffers.
-/

/-- A `system_logs` row, from the database service layer's `SystemLog`
interface.  `timestamp` is a number (modelled as `ℚ`); `payload` is kept
as its raw string form. -/
structure SystemLog where
  id : Nat
  session_id : String
  timestamp : ℚ
  level : String := ""
  category : String := ""
  message : Option String := none
  payload : String := ""
  trace_id : Option String := none
  server_name : Option String := none
  direction : Option String := none
deriving DecidableEq, Repr

/-- `ReplayStatus` from `ReplayEngine.ts`. -/
inductive ReplayStatus where
  | idle
  | playing
  | paused
  | ended
deriving DecidableEq, Repr

/-- The mutable fields of a `ReplayEngine` instance.  `startTime` is the
wall-clock anchor (`this.startTime`), `simulationTimeStart` the simulated
anchor, `pausedAt` the instant of the last `pause()`.  `batchSize` and
`refetchThreshold` come from the constructor options (defaults 1000 and
200). -/
structure EngineState where
  status : ReplayStatus
  speed : ℚ
  queue : List SystemLog
  offset : Nat
  totalLogs : Nat
  emittedCount : Nat
  startTime : ℚ
  simulationTimeStart : ℚ
  pausedAt : ℚ
  batchSize : Nat
  refetchThreshold : Nat
deriving DecidableEq, Repr

/-- A freshly constructed engine with the default options. -/
def initEngine : EngineState :=
  { status := .idle
    speed := 1
    queue := []
    offset := 0
    totalLogs := 0
    emittedCount := 0
    startTime := 0
    simulationTimeStart := 0
    pausedAt := 0
    batchSize := 1000
    refetchThreshold := 200 }

/-- Result of one engine operation: the new state plus the lists of
`onLog` emissions and `onProgress` reports made during the call, in
order. -/
structure StepOut where
  state : EngineState
  emitted : List SystemLog
  progress : List ℚ
deriving DecidableEq, Repr

/-- `fetchNextBatch`: read `batchSize` logs starting at `offset` from the
session's stored event list, append them to the queue and advance the
cursor (`this.queue.push(...logs); this.offset += logs.length`). -/
def fetchNextBatch (store : List SystemLog) (s : EngineState) : EngineState :=
  let logs := (store.drop s.offset).take s.batchSize
  { s with queue := s.queue ++ logs, offset := s.offset + logs.length }

/-- Result of the emission loop inside `tick`. -/
structure DrainOut where
  queue : List SystemLog
  emittedCount : Nat
  emitted : List SystemLog
  progress : List ℚ
deriving DecidableEq, Repr

/-- The `while` loop of `tick`: shift and emit queued logs while the head's
timestamp is at most the target simulated time, incrementing the emitted
count and reporting `emittedCount / totalLogs` after each emission. -/
def drainQueue (targetTime : ℚ) (total : Nat) :
    List SystemLog → Nat → DrainOut
  | [], n => ⟨[], n, [], []⟩
  | log :: rest, n =>
    if log.timestamp ≤ targetTime then
      let r := drainQueue targetTime total rest (n + 1)
      ⟨r.queue, r.emittedCount, log :: r.emitted,
        ((n + 1 : Nat) : ℚ) / (total : ℚ) :: r.progress⟩
    else ⟨log :: rest, n, [], []⟩

/-- `tick`: if not playing, do nothing; otherwise compute the target
simulated time `simulationTimeStart + (now - startTime) * speed`, drain
ready events, prefetch when the queue falls under the low-water mark, and
transition to `ended` when the queue is empty and the cursor has reached
the total. -/
def tick (store : List SystemLog) (now : ℚ) (s : EngineState) : StepOut :=
  if s.status ≠ .playing then ⟨s, [], []⟩ else
    let realElapsed := (now - s.startTime) * s.speed
    let targetTime := s.simulationTimeStart + realElapsed
    let d := drainQueue targetTime s.totalLogs s.queue s.emittedCount
    let s1 := { s with queue := d.queue, emittedCount := d.emittedCount }
    let s2 := if s1.queue.length < s1.refetchThreshold
              then fetchNextBatch store s1 else s1
    if s2.queue = [] ∧ s2.totalLogs ≤ s2.offset then
      ⟨{ s2 with status := .ended }, d.emitted, d.progress⟩
    else ⟨s2, d.emitted, d.progress⟩

/-- `start`: no-op while playing; from `idle` reset the cursor, count the
session, short-circuit to `ended` on an empty session, prefetch and anchor
the clocks; from `paused` shift `startTime` by the paused duration.  In
every non-returning branch the source then sets the status to `playing`
and calls `tick` once, so the observable outputs of `start` include that
first tick's emissions. -/
def start (store : List SystemLog) (now : ℚ) (s : EngineState) : StepOut :=
  if s.status = .playing then ⟨s, [], []⟩
  else if s.status = .idle then
    let s1 := { s with offset := 0, queue := [], emittedCount := 0,
                       totalLogs := store.length }
    if s1.totalLogs = 0 then ⟨{ s1 with status := .ended }, [], []⟩ else
    let s2 := fetchNextBatch store s1
    match s2.queue with
    | [] => ⟨{ s2 with status := .ended }, [], []⟩
    | q0 :: _ =>
      tick store now
        { s2 with simulationTimeStart := q0.timestamp, startTime := now,
                  status := .playing }
  else if s.status = .paused then
    tick store now
      { s with startTime := s.startTime + (now - s.pausedAt),
               status := .playing }
  else
    tick store now { s with status := .playing }

/-- `pause`: only valid from `playing`; records the pause instant. -/
def pause (now : ℚ) (s : EngineState) : EngineState :=
  if s.status ≠ .playing then s
  else { s with pausedAt := now, status := .paused }

/-- `stop`: discard the queue and cursor state and return to `idle`. -/
def stop (s : EngineState) : EngineState :=
  { s with queue := [], offset := 0, emittedCount := 0, status := .idle }

/-- `setSpeed`: non-positive multipliers are ignored; while playing the
wall-clock anchor is moved to `now - simElapsed / multiplier` so the
elapsed simulated duration is preserved at the new speed. -/
def setSpeed (now mult : ℚ) (s : EngineState) : EngineState :=
  if mult ≤ 0 then s
  else
    let s1 :=
      if s.status = .playing then
        let realElapsed := now - s.startTime
        let simElapsed := realElapsed * s.speed
        { s with startTime := now - simElapsed / mult }
      else s
    { s1 with speed := mult }

/-- `getSpeed`. -/
def getSpeed (s : EngineState) : ℚ := s.speed

/-- `getStatus`. -/
def getStatus (s : EngineState) : ReplayStatus := s.status

/-- `seek`: out-of-range positions are ignored; otherwise pause, move the
cursor to `⌊totalLogs * position⌋`, refetch, re-anchor the clocks when the
fetched queue is nonempty, report `position`, and resume (via `start`,
which runs one `tick`) when the engine was playing. -/
def seek (store : List SystemLog) (now : ℚ) (position : ℚ)
    (s : EngineState) : StepOut :=
  if position < 0 ∨ 1 < position then ⟨s, [], []⟩ else
    let wasPlaying := s.status = .playing
    let s1 := pause now s
    let targetOffset := Nat.floor ((s1.totalLogs : ℚ) * position)
    let s2 := { s1 with offset := targetOffset, emittedCount := targetOffset,
                        queue := [] }
    let s3 := fetchNextBatch store s2
    let s4 :=
      match s3.queue with
      | [] => s3
      | q0 :: _ =>
        { s3 with simulationTimeStart := q0.timestamp, startTime := now }
    if wasPlaying then
      let r := start store now s4
      ⟨r.state, r.emitted, position :: r.progress⟩
    else ⟨s4, [], [position]⟩

/-- Run a sequence of ticks at the given instants, concatenating outputs. -/
def runTicks (store : List SystemLog) (s : EngineState) :
    List ℚ → StepOut
  | [] => ⟨s, [], []⟩
  | t :: ts =>
    let r := tick store t s
    let rest := runTicks store r.state ts
    ⟨rest.state, r.emitted ++ rest.emitted, r.progress ++ rest.progress⟩

/-- A full replay session: `start()` on a fresh default engine at instant
`t0`, then ticks at the instants `ts`. -/
def replayRun (store : List SystemLog) (t0 : ℚ) (ts : List ℚ) : StepOut :=
  let r := start store t0 initEngine
  let rest := runTicks store r.state ts
  ⟨rest.state, r.emitted ++ rest.emitted, r.progress ++ rest.progress⟩

/-- The target simulated time the scheduler of state `s` computes at
wall-clock instant `t`. -/
def targetAt (s : EngineState) (t : ℚ) : ℚ :=
  s.simulationTimeStart + (t - s.startTime) * s.speed

/-- A log row with only the fields the replay path reads. -/
def mkLog (id : Nat) (sid : String) (ts : ℚ) : SystemLog :=
  { id := id, session_id := sid, timestamp := ts }

/-- Relational model of the database read `getLogsBySession`.  The SQL is
`SELECT * FROM system_logs WHERE session_id = $1 ORDER BY timestamp ASC
LIMIT $2 OFFSET $3`: a list is a possible result iff it arises by dropping
`offset` rows and taking `limit` rows from some permutation of the
session's rows that is sorted by `timestamp` alone — SQL imposes no order
between rows whose `timestamp` values are equal. -/
def getLogsBySessionResult (table : List SystemLog) (sessionId : String)
    (limit offset : Nat) (res : List SystemLog) : Prop :=
  ∃ ordered : List SystemLog,
    ordered.Perm (table.filter (fun l => l.session_id == sessionId)) ∧
    ordered.Chain' (fun a b => a.timestamp ≤ b.timestamp) ∧
    res = (ordered.drop offset).take limit

/-- An inspector message (`InspectorMessage` in the shared types; the
panel's `TrafficMessage` carries the same identifying fields). -/
structure InspectorMessage where
  id : String
  timestamp : String
  direction : String
  serverName : String := ""
  payload : String := ""
  method : Option String := none
deriving DecidableEq, Repr

/-- The last `n` elements of a list, JavaScript's `slice(-n)`. -/
def lastN (n : Nat) (l : List α) : List α :=
  l.drop (l.length - n)

/-- The app store's `addInspectorMessage` action:
`[...state.inspectorMessages, message].slice(-500)`. -/
def addInspectorMessage (msgs : List InspectorMessage)
    (message : InspectorMessage) : List InspectorMessage :=
  lastN 500 (msgs ++ [message])

/-- The inspector panel's live-list updater:
`setMessages((prev) => [...prev.slice(-499), msg])`. -/
def panelAddMessage (prev : List InspectorMessage)
    (msg : InspectorMessage) : List InspectorMessage :=
  lastN 499 prev ++ [msg]

example :
    (replayRun [mkLog 1 "s" 0, mkLog 2 "s" 5] 0 [100]).state.status
      = .ended := by
  norm_num +decide [replayRun, start, tick, drainQueue, fetchNextBatch,
    initEngine, mkLog, runTicks]

example :
    (replayRun [mkLog 1 "s" 0, mkLog 2 "s" 5] 0 [100]).emitted
      = [mkLog 1 "s" 0, mkLog 2 "s" 5] := by
  norm_num +decide [replayRun, start, tick, drainQueue, fetchNextBatch,
    initEngine, mkLog, runTicks]

/-! ### Field-preservation lemmas -/

lemma fetchNextBatch_fields (store : List SystemLog) (s : EngineState) :
    (fetchNextBatch store s).speed = s.speed ∧
    (fetchNextBatch store s).status = s.status ∧
    (fetchNextBatch store s).totalLogs = s.totalLogs ∧
    (fetchNextBatch store s).emittedCount = s.emittedCount ∧
    (fetchNextBatch store s).startTime = s.startTime ∧
    (fetchNextBatch store s).simulationTimeStart = s.simulationTimeStart ∧
    (fetchNextBatch store s).batchSize = s.batchSize ∧
    (fetchNextBatch store s).refetchThreshold = s.refetchThreshold := by
  simp [fetchNextBatch]

lemma tick_fields (store : List SystemLog) (now : ℚ) (s : EngineState) :
    (tick store now s).state.speed = s.speed ∧
    (tick store now s).state.totalLogs = s.totalLogs ∧
    (tick store now s).state.startTime = s.startTime ∧
    (tick store now s).state.simulationTimeStart = s.simulationTimeStart ∧
    (tick store now s).state.pausedAt = s.pausedAt ∧
    (tick store now s).state.batchSize = s.batchSize ∧
    (tick store now s).state.refetchThreshold = s.refetchThreshold := by
  unfold tick
  split
  · simp
  · dsimp only
    split <;> split <;> simp [fetchNextBatch]

lemma start_speed (store : List SystemLog) (now : ℚ) (s : EngineState) :
    (start store now s).state.speed = s.speed := by
  unfold start
  split
  · rfl
  · split
    · dsimp only
      split
      · rfl
      · split
        · simp [fetchNextBatch]
        · rw [(tick_fields _ _ _).1]
          simp [fetchNextBatch]
    · split
      · rw [(tick_fields _ _ _).1]
      · rw [(tick_fields _ _ _).1]

/-- Claim C8: invalid arguments are silent no-ops.  `setSpeed` with a
non-positive multiplier leaves the whole engine state unchanged, and
`seek` with a position below 0 or above 1 leaves the state unchanged and
produces no emissions and no progress reports. -/
theorem invalid_args_are_noops (store : List SystemLog) (now m p : ℚ)
    (s : EngineState) :
    (m ≤ 0 → setSpeed now m s = s) ∧
    (p < 0 ∨ 1 < p → seek store now p s = ⟨s, [], []⟩) := by
  constructor
  · intro hm
    simp [setSpeed, hm]
  · intro hp
    simp [seek, hp]

/-- Witness for C8 at the concrete inputs `m = -1`, `p = 2`. -/
theorem invalid_args_are_noops_witness :
    setSpeed 0 (-1) initEngine = initEngine ∧
    seek [] 0 2 initEngine = ⟨initEngine, [], []⟩ :=
  ⟨(invalid_args_are_noops [] 0 (-1) 2 initEngine).1 (by norm_num),
   (invalid_args_are_noops [] 0 (-1) 2 initEngine).2 (Or.inr (by norm_num))⟩

/-- Claim C9: `stop` discards the queue and cursor state and returns to
`idle`, but keeps the speed multiplier: after `setSpeed m` with `m > 0`
followed by `stop`, `getSpeed` still returns `m`, and a subsequent
`start` plays at speed `m` rather than the default 1.0. -/
theorem stop_preserves_speed (store : List SystemLog) (now t m : ℚ)
    (s : EngineState) (hm : 0 < m) :
    getSpeed (stop (setSpeed now m s)) = m ∧
    (stop (setSpeed now m s)).status = .idle ∧
    (stop (setSpeed now m s)).queue = [] ∧
    (stop (setSpeed now m s)).offset = 0 ∧
    (stop (setSpeed now m s)).emittedCount = 0 ∧
    (start store t (stop (setSpeed now m s))).state.speed = m := by
  have hm' : ¬ m ≤ 0 := not_le.mpr hm
  refine ⟨?_, by simp [stop], by simp [stop], by simp [stop], by simp [stop], ?_⟩
  · simp [getSpeed, stop, setSpeed, hm']
  · rw [start_speed]
    simp [stop, setSpeed, hm']

/-- Witness for C9 at `m = 2` on a fresh engine with a one-event store. -/
theorem stop_preserves_speed_witness :
    getSpeed (stop (setSpeed 0 2 initEngine)) = 2 ∧
    (stop (setSpeed 0 2 initEngine)).status = .idle ∧
    (stop (setSpeed 0 2 initEngine)).queue = [] ∧
    (stop (setSpeed 0 2 initEngine)).offset = 0 ∧
    (stop (setSpeed 0 2 initEngine)).emittedCount = 0 ∧
    (start [mkLog 1 "s" 0] 0 (stop (setSpeed 0 2 initEngine))).state.speed
      = 2 :=
  stop_preserves_speed [mkLog 1 "s" 0] 0 0 2 initEngine (by norm_num)

/-- A small reachable playing state: the engine after `start` at instant
0 on the two-event store `[mkLog 1 "s" 0, mkLog 2 "s" 5]` (the first
event emitted, the second still queued). -/
def playingDemoState : EngineState :=
  { status := .playing
    speed := 1
    queue := [mkLog 2 "s" 5]
    offset := 2
    totalLogs := 2
    emittedCount := 1
    startTime := 0
    simulationTimeStart := 0
    pausedAt := 0
    batchSize := 1000
    refetchThreshold := 200 }

example :
    (start [mkLog 1 "s" 0, mkLog 2 "s" 5] 0 initEngine).state
      = playingDemoState := by
  norm_num +decide [start, tick, drainQueue, fetchNextBatch, initEngine,
    mkLog, playingDemoState]

/-- Claim C3: while playing, `setSpeed m` with `m > 0` preserves the
target simulated time exactly at the instant of the change (the value
computed from the post-call anchors equals the pre-call value at the same
instant), leaves the queue and the emitted count untouched, and at every
later instant the new target is at least the target at the instant of the
change — the simulated clock never jumps backward and no already-emitted
event is emitted again. -/
theorem setSpeed_preserves_target (now m : ℚ) (s : EngineState)
    (h : s.status = .playing) (hm : 0 < m) :
    targetAt (setSpeed now m s) now = targetAt s now ∧
    (setSpeed now m s).queue = s.queue ∧
    (setSpeed now m s).emittedCount = s.emittedCount ∧
    ∀ t, now ≤ t → targetAt s now ≤ targetAt (setSpeed now m s) t := by
  have hm' : ¬ m ≤ 0 := not_le.mpr hm
  have hm0 : m ≠ 0 := ne_of_gt hm
  have hkey : targetAt (setSpeed now m s) now = targetAt s now := by
    simp only [setSpeed, targetAt, hm', if_false, h, if_pos]
    field_simp
  refine ⟨hkey, by simp [setSpeed, hm', h], by simp [setSpeed, hm', h], ?_⟩
  intro t ht
  rw [← hkey]
  have hspeed : (setSpeed now m s).speed = m := by simp [setSpeed, hm', h]
  simp only [targetAt, hspeed]
  have hsub : now - (setSpeed now m s).startTime
      ≤ t - (setSpeed now m s).startTime := by linarith
  have hmono : (now - (setSpeed now m s).startTime) * m
      ≤ (t - (setSpeed now m s).startTime) * m :=
    mul_le_mul_of_nonneg_right hsub hm.le
  linarith

/-- Witness for C3: a playing engine at speed 1 switched to speed 2. -/
theorem setSpeed_preserves_target_witness :
    targetAt (setSpeed 10 2 playingDemoState) 10 = targetAt playingDemoState 10 ∧
    (setSpeed 10 2 playingDemoState).queue = playingDemoState.queue ∧
    (setSpeed 10 2 playingDemoState).emittedCount
      = playingDemoState.emittedCount ∧
    ∀ t, (10:ℚ) ≤ t →
      targetAt playingDemoState 10 ≤ targetAt (setSpeed 10 2 playingDemoState) t :=
  setSpeed_preserves_target 10 2 playingDemoState rfl (by norm_num)

/-- Claim C6: resuming with `start` after `pause` shifts the wall-clock
anchor forward by exactly the paused duration `tr - tp`, keeping the speed
and simulated anchor, so the target simulated time after resuming at any
instant `t` equals the pre-pause target at `t - (tr - tp)`: the paused
real time contributes nothing to the simulated clock. -/
theorem pause_resume_excludes_paused_time (store : List SystemLog)
    (tp tr : ℚ) (s : EngineState) (h : s.status = .playing) :
    (start store tr (pause tp s)).state.startTime
        = s.startTime + (tr - tp) ∧
    (start store tr (pause tp s)).state.speed = s.speed ∧
    (start store tr (pause tp s)).state.simulationTimeStart
        = s.simulationTimeStart ∧
    ∀ t, targetAt (start store tr (pause tp s)).state t
        = targetAt s (t - (tr - tp)) := by
  have hpause : pause tp s = { s with pausedAt := tp, status := .paused } := by
    simp [pause, h]
  have hstart : start store tr (pause tp s)
      = tick store tr
          { s with pausedAt := tp,
                   startTime := s.startTime + (tr - tp),
                   status := .playing } := by
    rw [hpause]
    simp [start]
  rw [hstart]
  have hf := tick_fields store tr
    { s with pausedAt := tp, startTime := s.startTime + (tr - tp),
             status := .playing }
  refine ⟨by rw [hf.2.2.1], by rw [hf.1], by rw [hf.2.2.2.1], ?_⟩
  intro t
  simp only [targetAt, hf.1, hf.2.2.1, hf.2.2.2.1]
  ring

/-- Witness for C6: the playing demo engine paused at 10 and resumed at 25. -/
theorem pause_resume_excludes_paused_time_witness :
    (start [mkLog 1 "s" 0] 25 (pause 10 playingDemoState)).state.startTime
        = playingDemoState.startTime + (25 - 10) ∧
    (start [mkLog 1 "s" 0] 25 (pause 10 playingDemoState)).state.speed
        = playingDemoState.speed ∧
    (start [mkLog 1 "s" 0] 25 (pause 10 playingDemoState)).state.simulationTimeStart
        = playingDemoState.simulationTimeStart ∧
    ∀ t, targetAt (start [mkLog 1 "s" 0] 25 (pause 10 playingDemoState)).state t
        = targetAt playingDemoState (t - (25 - 10)) :=
  pause_resume_excludes_paused_time [mkLog 1 "s" 0] 10 25 playingDemoState rfl

/-! ### Properties of the emission loop -/

lemma drainQueue_nil (t : ℚ) (N n : Nat) :
    drainQueue t N [] n = ⟨[], n, [], []⟩ := rfl

lemma drainQueue_split (t : ℚ) (N : Nat) (q : List SystemLog) (n : Nat) :
    (drainQueue t N q n).emitted
        = q.takeWhile (fun l => decide (l.timestamp ≤ t)) ∧
    (drainQueue t N q n).queue
        = q.dropWhile (fun l => decide (l.timestamp ≤ t)) := by
  induction q generalizing n with
  | nil => simp [drainQueue]
  | cons log rest ih =>
    by_cases hts : log.timestamp ≤ t
    · simp [drainQueue, hts, List.takeWhile_cons, List.dropWhile_cons,
        (ih (n + 1)).1, (ih (n + 1)).2]
    · simp [drainQueue, hts, List.takeWhile_cons, List.dropWhile_cons]

lemma drainQueue_count (t : ℚ) (N : Nat) (q : List SystemLog) (n : Nat) :
    (drainQueue t N q n).emittedCount
      = n + (drainQueue t N q n).emitted.length := by
  induction q generalizing n with
  | nil => simp [drainQueue]
  | cons log rest ih =>
    by_cases hts : log.timestamp ≤ t
    · simp [drainQueue, hts, ih (n + 1)]
      omega
    · simp [drainQueue, hts]

lemma drainQueue_progress (t : ℚ) (N : Nat) (q : List SystemLog) (n : Nat) :
    (drainQueue t N q n).progress
      = (List.range (drainQueue t N q n).emitted.length).map
          (fun i => ((n + i + 1 : Nat) : ℚ) / (N : ℚ)) := by
  induction q generalizing n with
  | nil => simp [drainQueue]
  | cons log rest ih =>
    by_cases hts : log.timestamp ≤ t
    · simp only [drainQueue, if_pos hts, List.length_cons,
        List.range_succ_eq_map, List.map_cons, List.map_map]
      refine congrArg₂ _ (by norm_num) ?_
      rw [ih (n + 1)]
      refine List.map_congr_left ?_
      intro i _
      simp [Function.comp]
      ring_nf
    · simp [drainQueue, hts]

lemma tick_playing (store : List SystemLog) (now : ℚ) (s : EngineState)
    (h : s.status = .playing) :
    tick store now s =
      (let d := drainQueue (targetAt s now) s.totalLogs s.queue s.emittedCount
       let s1 := { s with queue := d.queue, emittedCount := d.emittedCount }
       let s2 := if s1.queue.length < s1.refetchThreshold
                 then fetchNextBatch store s1 else s1
       if s2.queue = [] ∧ s2.totalLogs ≤ s2.offset then
         ⟨{ s2 with status := .ended }, d.emitted, d.progress⟩
       else ⟨s2, d.emitted, d.progress⟩) := by
  rw [tick, if_neg (by simp [h])]
  rfl

/-- Claim C2: a tick taken in the playing state emits, in queue order,
exactly the front segment of the buffered queue whose timestamps are at
most `simulationTimeStart + (now - wallClockStart) * speed`; every emitted
event satisfies that bound (so later-stamped buffered events are not
emitted on this tick), the emitted count grows by one per emission, and
the progress reports after the successive emissions are
`(emittedCount + 1) / totalLogs, …, (emittedCount + k) / totalLogs`. -/
theorem tick_emits_ready_events (store : List SystemLog) (now : ℚ)
    (s : EngineState) (h : s.status = .playing) :
    (tick store now s).emitted
        = s.queue.takeWhile (fun l => decide (l.timestamp ≤ targetAt s now)) ∧
    (∀ l ∈ (tick store now s).emitted, l.timestamp ≤ targetAt s now) ∧
    (tick store now s).state.emittedCount
        = s.emittedCount + (tick store now s).emitted.length ∧
    (tick store now s).progress
        = (List.range (tick store now s).emitted.length).map
            (fun i => ((s.emittedCount + i + 1 : Nat) : ℚ) / (s.totalLogs : ℚ)) := by
  have ht := tick_playing store now s h
  have hem : (tick store now s).emitted
      = (drainQueue (targetAt s now) s.totalLogs s.queue s.emittedCount).emitted := by
    rw [ht]; dsimp only; split <;> (try split) <;> rfl
  have hpr : (tick store now s).progress
      = (drainQueue (targetAt s now) s.totalLogs s.queue s.emittedCount).progress := by
    rw [ht]; dsimp only; split <;> (try split) <;> rfl
  have hct : (tick store now s).state.emittedCount
      = (drainQueue (targetAt s now) s.totalLogs s.queue s.emittedCount).emittedCount := by
    rw [ht]; dsimp only
    split <;> split <;> simp [fetchNextBatch]
  refine ⟨?_, ?_, ?_, ?_⟩
  · rw [hem, (drainQueue_split _ _ _ _).1]
  · intro l hl
    rw [hem, (drainQueue_split _ _ _ _).1] at hl
    simpa using List.mem_takeWhile_imp hl
  · rw [hct, hem, drainQueue_count]
  · rw [hpr, hem, drainQueue_progress]

/-- Witness for C2 on the demo playing state at instant 10 (target 10,
so the queued event stamped 5 is emitted). -/
theorem tick_emits_ready_events_witness :
    (tick [mkLog 1 "s" 0, mkLog 2 "s" 5] 10 playingDemoState).emitted
        = playingDemoState.queue.takeWhile
            (fun l => decide (l.timestamp ≤ targetAt playingDemoState 10)) ∧
    (∀ l ∈ (tick [mkLog 1 "s" 0, mkLog 2 "s" 5] 10 playingDemoState).emitted,
        l.timestamp ≤ targetAt playingDemoState 10) ∧
    (tick [mkLog 1 "s" 0, mkLog 2 "s" 5] 10 playingDemoState).state.emittedCount
        = playingDemoState.emittedCount
          + (tick [mkLog 1 "s" 0, mkLog 2 "s" 5] 10 playingDemoState).emitted.length ∧
    (tick [mkLog 1 "s" 0, mkLog 2 "s" 5] 10 playingDemoState).progress
        = (List.range
            (tick [mkLog 1 "s" 0, mkLog 2 "s" 5] 10 playingDemoState).emitted.length).map
            (fun i => ((playingDemoState.emittedCount + i + 1 : Nat) : ℚ)
              / (playingDemoState.totalLogs : ℚ)) :=
  tick_emits_ready_events [mkLog 1 "s" 0, mkLog 2 "s" 5] 10 playingDemoState rfl

/-! ### Inspector message buffers -/

lemma lastN_length_le (n : Nat) (l : List α) : (lastN n l).length ≤ n := by
  simp only [lastN, List.length_drop]
  omega

lemma lastN_lastN (a b : Nat) (l : List α) :
    lastN a (lastN b l) = lastN (min a b) l := by
  simp only [lastN, List.drop_drop, List.length_drop]
  congr 1
  omega

lemma lastN_succ_append (n : Nat) (l : List α) (m : α) :
    lastN (n + 1) (l ++ [m]) = lastN n l ++ [m] := by
  simp only [lastN, List.length_append, List.length_singleton]
  rw [List.drop_append_eq_append_drop]
  congr 1
  · congr 1
    omega
  · have h1 : l.length + 1 - (n + 1) - l.length = 0 := by omega
    rw [h1]
    rfl

lemma panelAddMessage_eq (prev : List InspectorMessage)
    (m : InspectorMessage) :
    panelAddMessage prev m = addInspectorMessage prev m := by
  rw [panelAddMessage, addInspectorMessage, lastN_succ_append 499 prev m]

lemma addInspectorMessage_lastN (l : List InspectorMessage)
    (m : InspectorMessage) :
    addInspectorMessage (lastN 500 l) m = lastN 500 (l ++ [m]) := by
  rw [addInspectorMessage]
  have h499 : (499 : Nat) + 1 = 500 := rfl
  calc lastN 500 (lastN 500 l ++ [m])
      = lastN 499 (lastN 500 l) ++ [m] := by
        rw [← h499, lastN_succ_append]
    _ = lastN 499 l ++ [m] := by rw [lastN_lastN]; norm_num
    _ = lastN 500 (l ++ [m]) := by rw [← h499, lastN_succ_append]

lemma foldl_addInspectorMessage (hist : List InspectorMessage) :
    ∀ l : List InspectorMessage,
      hist.foldl addInspectorMessage (lastN 500 l) = lastN 500 (l ++ hist) := by
  induction hist with
  | nil => intro l; simp
  | cons m rest ih =>
    intro l
    rw [List.foldl_cons, addInspectorMessage_lastN, ih (l ++ [m]),
      List.append_assoc]
    rfl

/-- Claim C10: both in-memory inspector buffers are bounded at 500
entries.  Feeding any arrival history through the app store's
`addInspectorMessage` (starting from the empty list) leaves exactly the
500 most recently added messages in arrival order, and the inspector
panel's per-event updater maintains the identical bound; in particular
both buffers never exceed 500 entries. -/
theorem inspector_buffers_bounded (hist : List InspectorMessage) :
    hist.foldl addInspectorMessage [] = lastN 500 hist ∧
    hist.foldl panelAddMessage [] = lastN 500 hist ∧
    (hist.foldl addInspectorMessage []).length ≤ 500 ∧
    (hist.foldl panelAddMessage []).length ≤ 500 := by
  have hnil : (([] : List InspectorMessage)) = lastN 500 [] := rfl
  have h1 : hist.foldl addInspectorMessage [] = lastN 500 hist := by
    rw [hnil, foldl_addInspectorMessage hist []]
    rfl
  have hsame : hist.foldl panelAddMessage [] = hist.foldl addInspectorMessage [] := by
    have : panelAddMessage = addInspectorMessage := by
      funext prev m
      exact panelAddMessage_eq prev m
    rw [this]
  refine ⟨h1, by rw [hsame, h1], ?_, ?_⟩
  · rw [h1]; exact lastN_length_le 500 hist
  · rw [hsame, h1]; exact lastN_length_le 500 hist

/-! ### Order of database reads -/

/-- Claim C5 (amended): every possible result of the paginated session
read is in non-decreasing `timestamp` order; since the query orders by
`timestamp` alone, the relative order of rows with equal timestamps is
not constrained. -/
theorem query_results_sorted (table : List SystemLog) (sid : String)
    (limit offset : Nat) (res : List SystemLog)
    (h : getLogsBySessionResult table sid limit offset res) :
    res.Chain' (fun a b => a.timestamp ≤ b.timestamp) := by
  obtain ⟨ordered, hperm, hsort, hres⟩ := h
  subst hres
  have htrans : IsTrans SystemLog (fun a b => a.timestamp ≤ b.timestamp) :=
    ⟨fun a b c hab hbc => le_trans hab hbc⟩
  have hp : ordered.Pairwise (fun a b => a.timestamp ≤ b.timestamp) :=
    (@List.chain'_iff_pairwise _ _ htrans).mp hsort
  have hsub : ((ordered.drop offset).take limit).Sublist ordered :=
    (List.take_sublist _ _).trans (List.drop_sublist _ _)
  exact (@List.chain'_iff_pairwise _ _ htrans).mpr (hp.sublist hsub)

/-- Witness for the amended C5 on a concrete two-row table. -/
theorem query_results_sorted_witness :
    getLogsBySessionResult [mkLog 1 "s" 0, mkLog 2 "s" 5] "s" 10 0
      [mkLog 1 "s" 0, mkLog 2 "s" 5] ∧
    ([mkLog 1 "s" 0, mkLog 2 "s" 5] : List SystemLog).Chain'
      (fun a b => a.timestamp ≤ b.timestamp) := by
  have hres : getLogsBySessionResult [mkLog 1 "s" 0, mkLog 2 "s" 5] "s" 10 0
      [mkLog 1 "s" 0, mkLog 2 "s" 5] := by
    refine ⟨[mkLog 1 "s" 0, mkLog 2 "s" 5], ?_, ?_, rfl⟩
    · rfl
    · simp [mkLog, List.chain'_cons]
  exact ⟨hres, query_results_sorted _ "s" 10 0 _ hres⟩

/-- Two rows of one session sharing a timestamp, in insertion order. -/
def dupRowA : SystemLog := mkLog 1 "s" 0

/-- The second of the equal-timestamp rows. -/
def dupRowB : SystemLog := mkLog 2 "s" 0

/-- Counterexample to C5 as stated: the query orders by `timestamp` only,
so a result listing two equal-timestamp rows against insertion order
(descending `id`) is a possible return of `getLogsBySession`; the claimed
id-order tie-break therefore does not hold of every result. -/
theorem query_tie_order_counterexample :
    getLogsBySessionResult [dupRowA, dupRowB] "s" 10 0 [dupRowB, dupRowA] ∧
    ¬ ([dupRowB, dupRowA].Chain'
        (fun a b : SystemLog => a.timestamp = b.timestamp → a.id < b.id)) := by
  constructor
  · refine ⟨[dupRowB, dupRowA], ?_, ?_, rfl⟩
    · have hfil : [dupRowA, dupRowB].filter (fun l => l.session_id == "s")
          = [dupRowA, dupRowB] := rfl
      rw [hfil]
      exact List.Perm.swap dupRowA dupRowB []
    · simp [dupRowA, dupRowB, mkLog, List.chain'_cons]
  · intro hc
    have h2 := (List.chain'_cons.mp hc).1
    have hts : dupRowB.timestamp = dupRowA.timestamp := rfl
    have hid := h2 hts
    simp [dupRowA, dupRowB, mkLog] at hid

/-! ### Behaviour of start from the ended state -/

/-- A one-event session store. -/
def oneLogStore : List SystemLog := [mkLog 1 "s" 0]

/-- Counterexample to C4 as stated: after a complete one-event replay the
engine is `ended` with cursor 1; calling `start()` again does not reset
the cursor or emitted count and replays nothing — it returns to `ended`
with zero emissions instead of replaying the session from the first
event. -/
theorem start_from_ended_counterexample :
    (start oneLogStore 0 initEngine).state.status = .ended ∧
    (start oneLogStore 0 initEngine).emitted = oneLogStore ∧
    (start oneLogStore 5 (start oneLogStore 0 initEngine).state).emitted
      = [] ∧
    (start oneLogStore 5 (start oneLogStore 0 initEngine).state).state.offset
      = 1 ∧
    (start oneLogStore 5 (start oneLogStore 0 initEngine).state).state.emittedCount
      = 1 ∧
    (start oneLogStore 5 (start oneLogStore 0 initEngine).state).state.status
      = .ended := by
  norm_num +decide [start, tick, drainQueue, fetchNextBatch, initEngine,
    mkLog, oneLogStore]

/-- Claim C4 (amended): from the `ended` state (queue drained, cursor at
or past the end of the store), `start()` does not reinitialize playback:
it leaves the whole state unchanged (passing through `playing` and
immediately re-ending) and emits nothing.  Reinitialization from position
0 requires `stop()`, which alone resets the queue, cursor, and emitted
count and forces the state back to `idle`, after which `start()` replays
from the first event. -/
theorem start_from_ended_is_noop (store : List SystemLog) (t : ℚ)
    (s : EngineState) (h : s.status = .ended) (hq : s.queue = [])
    (ho : s.totalLogs ≤ s.offset) (hs : store.length ≤ s.offset) :
    start store t s = ⟨s, [], []⟩ ∧
    (stop s).status = .idle ∧ (stop s).offset = 0 ∧
    (stop s).emittedCount = 0 ∧ (stop s).queue = [] := by
  refine ⟨?_, rfl, rfl, rfl, rfl⟩
  have hdrop : store.drop s.offset = [] := List.drop_eq_nil_of_le hs
  obtain ⟨st, sp, q, off, tot, em, stt, sim, pa, bs, rt⟩ := s
  simp only at h hq ho hs hdrop
  subst h
  subst hq
  simp +decide [start, tick, drainQueue, fetchNextBatch, hdrop, ho]

/-- Witness for the amended C4 at the ended state reached by completely
replaying the one-event store. -/
theorem start_from_ended_is_noop_witness :
    start oneLogStore 5 (start oneLogStore 0 initEngine).state
        = ⟨(start oneLogStore 0 initEngine).state, [], []⟩ ∧
    (stop (start oneLogStore 0 initEngine).state).status = .idle ∧
    (stop (start oneLogStore 0 initEngine).state).offset = 0 ∧
    (stop (start oneLogStore 0 initEngine).state).emittedCount = 0 ∧
    (stop (start oneLogStore 0 initEngine).state).queue = [] :=
  start_from_ended_is_noop oneLogStore 5 (start oneLogStore 0 initEngine).state
    (by norm_num +decide [start, tick, drainQueue, fetchNextBatch, initEngine,
      mkLog, oneLogStore])
    (by norm_num +decide [start, tick, drainQueue, fetchNextBatch, initEngine,
      mkLog, oneLogStore])
    (by norm_num +decide [start, tick, drainQueue, fetchNextBatch, initEngine,
      mkLog, oneLogStore])
    (by norm_num +decide [start, tick, drainQueue, fetchNextBatch, initEngine,
      mkLog, oneLogStore])

/-! ### Idempotence of seek -/

/-- A two-event session store. -/
def twoLogStore : List SystemLog := [mkLog 1 "s" 0, mkLog 2 "s" 5]

/-- Counterexample to C7 as stated: on a playing engine, `seek(0.5)`
resumes via `start`, whose embedded tick immediately emits the last event
and ends playback (`emittedCount = 2`, empty queue); the second
`seek(0.5)` then finds a non-playing engine, resets `emittedCount` to the
target offset 1 and refetches a non-empty queue — the cursor state after
the two calls differs, so back-to-back seeks are not idempotent in
general. -/
theorem seek_idempotence_counterexample :
    (seek twoLogStore 10 (1/2)
      (start twoLogStore 0 initEngine).state).state.emittedCount = 2 ∧
    (seek twoLogStore 20 (1/2)
      (seek twoLogStore 10 (1/2)
        (start twoLogStore 0 initEngine).state).state).state.emittedCount = 1 ∧
    (seek twoLogStore 10 (1/2)
      (start twoLogStore 0 initEngine).state).state.queue = [] ∧
    (seek twoLogStore 20 (1/2)
      (seek twoLogStore 10 (1/2)
        (start twoLogStore 0 initEngine).state).state).state.queue
      = [mkLog 2 "s" 5] := by
  norm_num +decide [seek, pause, start, tick, drainQueue, fetchNextBatch,
    initEngine, mkLog, twoLogStore]

lemma seek_nonplaying_parts (store : List SystemLog) (p t : ℚ)
    (s : EngineState) (hp : ¬(p < 0 ∨ 1 < p)) (hst : ¬ s.status = .playing) :
    (seek store t p s).state.offset
        = Nat.floor ((s.totalLogs : ℚ) * p)
          + ((store.drop (Nat.floor ((s.totalLogs : ℚ) * p))).take
              s.batchSize).length ∧
    (seek store t p s).state.emittedCount
        = Nat.floor ((s.totalLogs : ℚ) * p) ∧
    (seek store t p s).state.queue
        = (store.drop (Nat.floor ((s.totalLogs : ℚ) * p))).take s.batchSize ∧
    (seek store t p s).state.status = s.status ∧
    (seek store t p s).state.totalLogs = s.totalLogs ∧
    (seek store t p s).state.batchSize = s.batchSize ∧
    (seek store t p s).state.refetchThreshold = s.refetchThreshold ∧
    (seek store t p s).state.speed = s.speed ∧
    (seek store t p s).emitted = [] := by
  rcases hb : (store.drop (Nat.floor ((s.totalLogs : ℚ) * p))).take s.batchSize
      with _ | ⟨b0, rest⟩ <;>
    simp [seek, pause, fetchNextBatch, hp, hst, hb]

lemma seek_playing_congr (store : List SystemLog) (p t t' : ℚ)
    (s s' : EngineState) (hp : ¬(p < 0 ∨ 1 < p))
    (hst : s.status = .playing) (hst' : s'.status = .playing)
    (htot : s.totalLogs = s'.totalLogs) (hsp : s.speed = s'.speed)
    (hbs : s.batchSize = s'.batchSize)
    (hrt : s.refetchThreshold = s'.refetchThreshold) :
    (seek store t p s).state.offset = (seek store t' p s').state.offset ∧
    (seek store t p s).state.emittedCount
        = (seek store t' p s').state.emittedCount ∧
    (seek store t p s).state.queue = (seek store t' p s').state.queue ∧
    (seek store t p s).state.status = (seek store t' p s').state.status ∧
    (seek store t p s).emitted = (seek store t' p s').emitted := by
  obtain ⟨st, sp, q, off, tot, em, stt, sim, pa, bs, rt⟩ := s
  obtain ⟨st', sp', q', off', tot', em', stt', sim', pa', bs', rt'⟩ := s'
  simp only at hst hst' htot hsp hbs hrt
  subst hst
  subst hst'
  subst htot
  subst hsp
  subst hbs
  subst hrt
  rcases hb : (store.drop (Nat.floor ((tot : ℚ) * p))).take bs
      with _ | ⟨b0, rest⟩ <;>
    simp [seek, pause, start, tick, fetchNextBatch, drainQueue_nil, hp, hb,
      apply_ite StepOut.state, apply_ite StepOut.emitted,
      apply_ite EngineState.offset, apply_ite EngineState.emittedCount,
      apply_ite EngineState.queue, apply_ite EngineState.status,
      apply_ite EngineState.totalLogs]

lemma seek_fields (store : List SystemLog) (t p : ℚ) (s : EngineState) :
    (seek store t p s).state.totalLogs = s.totalLogs ∧
    (seek store t p s).state.speed = s.speed ∧
    (seek store t p s).state.batchSize = s.batchSize ∧
    (seek store t p s).state.refetchThreshold = s.refetchThreshold := by
  by_cases hp : p < 0 ∨ 1 < p
  · simp [seek, hp]
  · by_cases hplay : s.status = .playing
    · obtain ⟨st, sp, q, off, tot, em, stt, sim, pa, bs, rt⟩ := s
      simp only at hplay
      subst hplay
      rcases hb : (store.drop (Nat.floor ((tot : ℚ) * p))).take bs
          with _ | ⟨b0, rest⟩ <;>
        simp [seek, pause, start, tick, fetchNextBatch, drainQueue_nil, hp, hb,
          apply_ite StepOut.state, apply_ite EngineState.totalLogs,
          apply_ite EngineState.speed, apply_ite EngineState.batchSize,
          apply_ite EngineState.refetchThreshold]
    · have h := seek_nonplaying_parts store p t s hp hplay
      exact ⟨h.2.2.2.2.1, h.2.2.2.2.2.2.2.1, h.2.2.2.2.2.1, h.2.2.2.2.2.2.1⟩

/-- Claim C7 (amended): `seek(p)` immediately followed by `seek(p)` (store
unchanged, no intervening ticks) leaves the cursor offset, the emitted
count, the buffered queue, the status and the events emitted by the call
identical to their values after the first call, provided the first seek
does not carry a playing engine into `ended` (when the engine is playing,
`seek` resumes it via `start`, whose embedded tick can exhaust the
session; in that one situation the second seek instead rewinds the
cursor, as the counterexample shows). -/
theorem seek_seek_idempotent (store : List SystemLog) (p t1 t2 : ℚ)
    (s : EngineState)
    (hP : s.status = .playing → (seek store t1 p s).state.status = .playing) :
    (seek store t2 p (seek store t1 p s).state).state.offset
        = (seek store t1 p s).state.offset ∧
    (seek store t2 p (seek store t1 p s).state).state.emittedCount
        = (seek store t1 p s).state.emittedCount ∧
    (seek store t2 p (seek store t1 p s).state).state.queue
        = (seek store t1 p s).state.queue ∧
    (seek store t2 p (seek store t1 p s).state).state.status
        = (seek store t1 p s).state.status ∧
    (seek store t2 p (seek store t1 p s).state).emitted
        = (seek store t1 p s).emitted := by
  by_cases hp : p < 0 ∨ 1 < p
  · have h1 : seek store t1 p s = ⟨s, [], []⟩ := by simp [seek, hp]
    have h2 : seek store t2 p s = ⟨s, [], []⟩ := by simp [seek, hp]
    rw [h1]
    dsimp only
    rw [h2]
    exact ⟨rfl, rfl, rfl, rfl, rfl⟩
  · by_cases hplay : s.status = .playing
    · have h1 := hP hplay
      have hf := seek_fields store t1 p s
      exact seek_playing_congr store p t2 t1 (seek store t1 p s).state s hp
        h1 hplay hf.1 hf.2.1 hf.2.2.1 hf.2.2.2
    · have ha := seek_nonplaying_parts store p t1 s hp hplay
      have hst1 : ¬ (seek store t1 p s).state.status = .playing := by
        rw [ha.2.2.2.1]; exact hplay
      have hb := seek_nonplaying_parts store p t2 (seek store t1 p s).state
        hp hst1
      refine ⟨?_, ?_, ?_, ?_, ?_⟩
      · rw [hb.1, ha.1, ha.2.2.2.2.1, ha.2.2.2.2.2.1]
      · rw [hb.2.1, ha.2.1, ha.2.2.2.2.1]
      · rw [hb.2.2.1, ha.2.2.1, ha.2.2.2.2.1, ha.2.2.2.2.2.1]
      · rw [hb.2.2.2.1, ha.2.2.2.1]
      · rw [hb.2.2.2.2.2.2.2.2, ha.2.2.2.2.2.2.2.2]

/-- Witness for the amended C7: two `seek(0.5)` calls on a fresh idle
engine over the two-event store. -/
theorem seek_seek_idempotent_witness :
    (seek twoLogStore 20 (1/2)
        (seek twoLogStore 10 (1/2) initEngine).state).state.offset
        = (seek twoLogStore 10 (1/2) initEngine).state.offset ∧
    (seek twoLogStore 20 (1/2)
        (seek twoLogStore 10 (1/2) initEngine).state).state.emittedCount
        = (seek twoLogStore 10 (1/2) initEngine).state.emittedCount ∧
    (seek twoLogStore 20 (1/2)
        (seek twoLogStore 10 (1/2) initEngine).state).state.queue
        = (seek twoLogStore 10 (1/2) initEngine).state.queue ∧
    (seek twoLogStore 20 (1/2)
        (seek twoLogStore 10 (1/2) initEngine).state).state.status
        = (seek twoLogStore 10 (1/2) initEngine).state.status ∧
    (seek twoLogStore 20 (1/2)
        (seek twoLogStore 10 (1/2) initEngine).state).emitted
        = (seek twoLogStore 10 (1/2) initEngine).emitted :=
  seek_seek_idempotent twoLogStore (1/2) 10 20 initEngine
    (by intro h; exact absurd h (by norm_num +decide [initEngine]))

/-! ### Complete replay runs -/

/-- Invariant tying a reachable engine state to the stored session list
`store` and the list `em` of events emitted so far: the cursor counts the
fetched events, emitted events followed by the queue form the fetched
prefix of the store, the emitted counter counts the emissions, the batch
options are positive, a playing engine always has a buffered event, and
an ended engine has drained everything. -/
def CursorInv (store em : List SystemLog) (s : EngineState) : Prop :=
  s.totalLogs = store.length ∧
  s.offset = em.length + s.queue.length ∧
  em ++ s.queue = store.take s.offset ∧
  s.emittedCount = em.length ∧
  0 < s.batchSize ∧
  0 < s.refetchThreshold

/-- `CursorInv` plus the status-dependent facts. -/
def EngineInv (store em : List SystemLog) (s : EngineState) : Prop :=
  CursorInv store em s ∧
  (s.status = .playing → s.queue ≠ []) ∧
  (s.status = .ended → s.queue = [] ∧ store.length ≤ s.offset)

lemma take_length_take (l : List α) (n : Nat) :
    l.take (l.take n).length = l.take n := by
  rw [List.length_take]
  rcases le_total n l.length with h | h
  · rw [min_eq_left h]
  · rw [min_eq_right h, List.take_length, List.take_of_length_le h]

lemma take_append_of_length (l : List α) (m k : Nat) :
    l.take m ++ (l.drop m).take k = l.take (m + ((l.drop m).take k).length) := by
  rw [List.take_add]
  congr 1
  rw [List.length_take, List.length_drop]
  rcases le_total k (l.length - m) with h | h
  · rw [min_eq_left h]
  · rw [min_eq_right h]
    rw [List.take_of_length_le, List.take_of_length_le] <;>
      simp [List.length_drop, h]

lemma drainQueue_getLast (t : ℚ) (N : Nat) (q : List SystemLog) (n : Nat)
    (hne : (drainQueue t N q n).emitted ≠ []) :
    (drainQueue t N q n).progress.getLast?
      = some (((drainQueue t N q n).emittedCount : Nat) / (N : ℚ)) := by
  rw [drainQueue_progress, drainQueue_count]
  rcases hk : (drainQueue t N q n).emitted.length with _ | m
  · rw [List.length_eq_zero] at hk
    exact absurd hk hne
  · rw [List.range_succ, List.map_append, List.map_cons, List.map_nil,
      List.getLast?_concat, Nat.add_assoc]

lemma fetch_cursorInv (store em : List SystemLog) (s : EngineState)
    (h : CursorInv store em s) :
    CursorInv store em (fetchNextBatch store s) := by
  obtain ⟨htot, hoff, hpre, hemc, hbs, hrt⟩ := h
  refine ⟨htot, ?_, ?_, hemc, hbs, hrt⟩
  · simp only [fetchNextBatch, List.length_append]
    omega
  · simp only [fetchNextBatch]
    rw [← List.append_assoc, hpre, take_append_of_length]

lemma tick_inv (store : List SystemLog) (now : ℚ) (em : List SystemLog)
    (s : EngineState) (hInv : EngineInv store em s) :
    EngineInv store (em ++ (tick store now s).emitted) (tick store now s).state ∧
    (tick store now s).progress.length = (tick store now s).emitted.length ∧
    ((tick store now s).emitted ≠ [] →
      (tick store now s).progress.getLast?
        = some (((tick store now s).state.emittedCount : Nat) / (store.length : ℚ))) ∧
    ((tick store now s).emitted = [] →
      (tick store now s).state.emittedCount = s.emittedCount) := by
  by_cases hst : s.status = .playing
  case neg =>
    have hskip : tick store now s = ⟨s, [], []⟩ := by
      rw [tick, if_pos]
      simpa using hst
    rw [hskip]
    exact ⟨by simpa using hInv, by simp, by simp, by simp⟩
  case pos =>
    obtain ⟨⟨htot, hoff, hpre, hemc, hbs, hrt⟩, hplayq, hendq⟩ := hInv
    rw [tick_playing store now s hst]
    dsimp only
    set d := drainQueue (targetAt s now) s.totalLogs s.queue s.emittedCount
      with hd
    have happend : d.emitted ++ d.queue = s.queue := by
      rw [hd, (drainQueue_split _ _ _ _).1, (drainQueue_split _ _ _ _).2]
      exact List.takeWhile_append_dropWhile _ _
    have hlen : d.emitted.length + d.queue.length = s.queue.length := by
      have := congrArg List.length happend
      simpa using this
    have hcnt : d.emittedCount = s.emittedCount + d.emitted.length := by
      rw [hd]
      exact drainQueue_count _ _ _ _
    have hplen : d.progress.length = d.emitted.length := by
      rw [hd, drainQueue_progress]
      simp
    have hpget : d.emitted ≠ [] →
        d.progress.getLast? = some ((d.emittedCount : Nat) / (store.length : ℚ)) := by
      intro hne
      rw [hd] at hne ⊢
      rw [← htot]
      exact drainQueue_getLast _ _ _ _ hne
    have hcount4 : d.emitted = [] → d.emittedCount = s.emittedCount := by
      intro h
      rw [hcnt, h]
      rfl
    have hs1 : CursorInv store (em ++ d.emitted)
        { s with queue := d.queue, emittedCount := d.emittedCount } := by
      refine ⟨htot, ?_, ?_, ?_, hbs, hrt⟩
      · simp only [List.length_append]
        omega
      · show em ++ d.emitted ++ d.queue = store.take s.offset
        rw [List.append_assoc, happend, hpre]
      · simp only [List.length_append]
        omega
    have hs2 := fetch_cursorInv store (em ++ d.emitted) _ hs1
    split
    case isTrue hlt =>
      split
      case isTrue hcond =>
        have hc2 : s.totalLogs
            ≤ s.offset + ((store.drop s.offset).take s.batchSize).length :=
          hcond.2
        refine ⟨⟨hs2, ?_, ?_⟩, hplen, fun h => hpget h, fun h => hcount4 h⟩
        · intro h
          exact absurd h (by simp)
        · intro _
          refine ⟨hcond.1, ?_⟩
          show store.length ≤ s.offset + ((store.drop s.offset).take s.batchSize).length
          omega
      case isFalse hcond =>
        refine ⟨⟨hs2, ?_, ?_⟩, hplen, fun h => hpget h, fun h => hcount4 h⟩
        · intro _ hq
          have hq' : d.queue ++ (store.drop s.offset).take s.batchSize = [] := hq
          rcases List.append_eq_nil.mp hq' with ⟨hq1, hq2⟩
          rcases List.take_eq_nil_iff.mp hq2 with hbs0 | hdrop
          · omega
          · have hlend := congrArg List.length hdrop
            simp only [List.length_drop, List.length_nil] at hlend
            refine hcond ⟨hq, ?_⟩
            have h0 : ((store.drop s.offset).take s.batchSize).length = 0 := by
              rw [hq2]
              rfl
            show s.totalLogs
                ≤ s.offset + ((store.drop s.offset).take s.batchSize).length
            omega
        · intro h
          exact absurd h (by simp [fetchNextBatch, hst])
    case isFalse hlt =>
      split
      case isTrue hcond =>
        have hc2 : s.totalLogs ≤ s.offset := hcond.2
        refine ⟨⟨hs1, ?_, ?_⟩, hplen, fun h => hpget h, fun h => hcount4 h⟩
        · intro h
          exact absurd h (by simp)
        · intro _
          refine ⟨hcond.1, ?_⟩
          show store.length ≤ s.offset
          omega
      case isFalse hcond =>
        refine ⟨⟨hs1, ?_, ?_⟩, hplen, fun h => hpget h, fun h => hcount4 h⟩
        · intro _ hq
          apply hlt
          have hq' : d.queue = [] := hq
          rw [hq']
          simpa using hrt
        · intro h
          exact absurd h (by simp [hst])

lemma runTicks_inv (store : List SystemLog) (ts : List ℚ) :
    ∀ (s : EngineState) (em : List SystemLog), EngineInv store em s →
      EngineInv store (em ++ (runTicks store s ts).emitted)
          (runTicks store s ts).state ∧
      (runTicks store s ts).progress.length
          = (runTicks store s ts).emitted.length ∧
      ((runTicks store s ts).emitted ≠ [] →
        (runTicks store s ts).progress.getLast?
          = some (((runTicks store s ts).state.emittedCount : Nat)
              / (store.length : ℚ))) ∧
      ((runTicks store s ts).emitted = [] →
        (runTicks store s ts).state.emittedCount = s.emittedCount ∧
        (runTicks store s ts).progress = []) := by
  induction ts with
  | nil =>
    intro s em hInv
    refine ⟨by simpa [runTicks] using hInv, rfl, ?_, ?_⟩
    · intro h
      exact absurd rfl h
    · intro _
      exact ⟨rfl, rfl⟩
  | cons t ts ih =>
    intro s em hInv
    have htick := tick_inv store t em s hInv
    have hrest := ih (tick store t s).state (em ++ (tick store t s).emitted)
      htick.1
    set r := tick store t s with hr
    set rest := runTicks store r.state ts with hrest2
    have hstate : (runTicks store s (t :: ts)).state = rest.state := rfl
    have hemit : (runTicks store s (t :: ts)).emitted
        = r.emitted ++ rest.emitted := rfl
    have hprog : (runTicks store s (t :: ts)).progress
        = r.progress ++ rest.progress := rfl
    rw [hstate, hemit, hprog]
    refine ⟨?_, ?_, ?_, ?_⟩
    · rw [← List.append_assoc]
      exact hrest.1
    · simp only [List.length_append, htick.2.1, hrest.2.1]
    · intro hne
      by_cases he : rest.emitted = []
      · have hp0 : rest.progress = [] := (hrest.2.2.2 he).2
        have hrne : r.emitted ≠ [] := by
          intro h0
          apply hne
          rw [h0, he]
          rfl
        have hcnt : rest.state.emittedCount = r.state.emittedCount :=
          (hrest.2.2.2 he).1
        rw [hp0, List.append_nil, htick.2.2.1 hrne, hcnt]
      · have hpne : rest.progress ≠ [] := by
          intro h0
          apply he
          apply List.length_eq_zero.mp
          rw [← hrest.2.1, h0]
          rfl
        rw [List.getLast?_append_of_ne_nil _ hpne]
        exact hrest.2.2.1 he
    · intro h
      rcases List.append_eq_nil.mp h with ⟨h1, h2⟩
      have hc := (hrest.2.2.2 h2).1
      have hp := (hrest.2.2.2 h2).2
      have hq : r.progress = [] := by
        apply List.length_eq_zero.mp
        rw [htick.2.1, h1]
        rfl
      exact ⟨by rw [hc, htick.2.2.2 h1], by rw [hp, hq]; rfl⟩

lemma start_idle_inv (store : List SystemLog) (t0 : ℚ) (hne : store ≠ []) :
    EngineInv store (start store t0 initEngine).emitted
        (start store t0 initEngine).state ∧
    (start store t0 initEngine).progress.length
        = (start store t0 initEngine).emitted.length ∧
    ((start store t0 initEngine).emitted ≠ [] →
      (start store t0 initEngine).progress.getLast?
        = some (((start store t0 initEngine).state.emittedCount : Nat)
            / (store.length : ℚ))) ∧
    ((start store t0 initEngine).emitted = [] →
      (start store t0 initEngine).state.emittedCount = 0 ∧
      (start store t0 initEngine).progress = []) := by
  have hlen0 : ¬ store.length = 0 := by
    simpa [List.length_eq_zero] using hne
  rcases hq : store.take 1000 with _ | ⟨q0, qrest⟩
  · exfalso
    rcases List.take_eq_nil_iff.mp hq with h | h
    · exact absurd h (by norm_num)
    · exact hne h
  · have hstart : start store t0 initEngine = tick store t0
        { status := .playing, speed := 1, queue := q0 :: qrest,
          offset := (q0 :: qrest).length, totalLogs := store.length,
          emittedCount := 0, startTime := t0,
          simulationTimeStart := q0.timestamp, pausedAt := 0,
          batchSize := 1000, refetchThreshold := 200 } := by
      simp +decide [start, initEngine, fetchNextBatch, hlen0, hq]
    have hpre0 : EngineInv store []
        { status := .playing, speed := 1, queue := q0 :: qrest,
          offset := (q0 :: qrest).length, totalLogs := store.length,
          emittedCount := 0, startTime := t0,
          simulationTimeStart := q0.timestamp, pausedAt := 0,
          batchSize := 1000, refetchThreshold := 200 } := by
      refine ⟨⟨rfl, by simp, ?_, rfl, by norm_num, by norm_num⟩, ?_, ?_⟩
      · show q0 :: qrest = store.take (q0 :: qrest).length
        rw [← hq, take_length_take]
      · intro _
        simp
      · intro h
        exact absurd h (by simp)
    have hmain := tick_inv store t0 []
      { status := .playing, speed := 1, queue := q0 :: qrest,
        offset := (q0 :: qrest).length, totalLogs := store.length,
        emittedCount := 0, startTime := t0,
        simulationTimeStart := q0.timestamp, pausedAt := 0,
        batchSize := 1000, refetchThreshold := 200 } hpre0
    rw [hstart]
    refine ⟨by simpa using hmain.1, hmain.2.1, hmain.2.2.1, ?_⟩
    intro h
    refine ⟨by simpa using hmain.2.2.2 h, ?_⟩
    apply List.length_eq_zero.mp
    rw [hmain.2.1, h]
    rfl

/-- Claim C1: a complete replay of a session with events — `start()` on a
fresh default engine from `idle` followed by any sequence of ticks that
reaches the `ended` status — emits exactly the session's `N` stored
events, once each and in stored order, and the last progress value
reported is exactly 1; for a session with zero events, `start()` from
`idle` transitions directly to `ended` with zero emissions. -/
theorem replay_emits_all_events_in_order (store : List SystemLog) (t0 : ℚ)
    (ts : List ℚ) :
    (store = [] →
      (start store t0 initEngine).state.status = .ended ∧
      (start store t0 initEngine).emitted = []) ∧
    (store ≠ [] → (replayRun store t0 ts).state.status = .ended →
      (replayRun store t0 ts).emitted = store ∧
      (replayRun store t0 ts).progress.getLast? = some 1) := by
  constructor
  · intro h
    subst h
    constructor <;> simp +decide [start, initEngine]
  · intro hne hend
    have hs := start_idle_inv store t0 hne
    have hr := runTicks_inv store ts (start store t0 initEngine).state
      (start store t0 initEngine).emitted hs.1
    set r0 := start store t0 initEngine with hr0
    set rest := runTicks store r0.state ts with hrestDef
    have hstate : (replayRun store t0 ts).state = rest.state := rfl
    have hemit : (replayRun store t0 ts).emitted
        = r0.emitted ++ rest.emitted := rfl
    have hprog : (replayRun store t0 ts).progress
        = r0.progress ++ rest.progress := rfl
    rw [hstate] at hend
    obtain ⟨⟨⟨htot, hoff, hpre, hemc, _, _⟩, _, hendq⟩, hlen2, hlast, hnil⟩ := hr
    obtain ⟨hqnil, hge⟩ := hendq hend
    have hemstore : r0.emitted ++ rest.emitted = store := by
      have hpre' := hpre
      rw [hqnil, List.append_nil] at hpre'
      rw [hpre', List.take_of_length_le hge]
    have hcount : rest.state.emittedCount = store.length := by
      rw [hemc, hemstore]
    have hlpos : store.length ≠ 0 := by
      simpa [List.length_eq_zero] using hne
    have hdiv : ((store.length : Nat) : ℚ) / ((store.length : Nat) : ℚ) = 1 :=
      div_self (by exact_mod_cast hlpos)
    refine ⟨by rw [hemit, hemstore], ?_⟩
    rw [hprog]
    by_cases he : rest.emitted = []
    · have hp0 : rest.progress = [] := (hnil he).2
      have hr0ne : r0.emitted ≠ [] := by
        intro h0
        apply hne
        rw [← hemstore, h0, he]
        rfl
      have hcnteq : r0.state.emittedCount = rest.state.emittedCount :=
        ((hnil he).1).symm
      rw [hp0, List.append_nil, hs.2.2.1 hr0ne, hcnteq, hcount, hdiv]
    · have hpne : rest.progress ≠ [] := by
        intro h0
        apply he
        apply List.length_eq_zero.mp
        rw [← hlen2, h0]
        rfl
      rw [List.getLast?_append_of_ne_nil _ hpne, hlast he, hcount, hdiv]

/-- Witness for C1: the two-event demo store replayed to completion with a
single tick at instant 100; both the nonempty-session and empty-session
parts are exercised. -/
theorem replay_emits_all_events_in_order_witness :
    ((start ([] : List SystemLog) 0 initEngine).state.status = .ended ∧
      (start ([] : List SystemLog) 0 initEngine).emitted = []) ∧
    ((replayRun twoLogStore 0 [100]).emitted = twoLogStore ∧
      (replayRun twoLogStore 0 [100]).progress.getLast? = some 1) :=
  ⟨(replay_emits_all_events_in_order [] 0 []).1 rfl,
   (replay_emits_all_events_in_order twoLogStore 0 [100]).2
     (by norm_num +decide [twoLogStore, mkLog])
     (by norm_num +decide [replayRun, runTicks, start, tick, drainQueue,
       fetchNextBatch, initEngine, mkLog, twoLogStore])⟩
